import Mathlib

/-!
Shallow embedding of `main.py` (onetruebot): a scheduled membership-governance
job that scans members of a chat server, grants a role to members past a
tenure threshold (original feature), and resolves role pairs by removing a
primary role when a configured secondary role is also held (new feature),
notifying affected members by direct message.

Modelling conventions:
* Python strings used as message text are `List Char` (`PyStr`), so splitting
  on newlines and stripping whitespace are ordinary list operations.
* Timestamps are integers (seconds); `timedelta(days=d)` is `86400 * d`.
* The external platform (discord) is a `Guild` snapshot: resolvable role ids,
  the member population in iteration order, and per-call outcome oracles for
  `add_roles`, `remove_roles`, and `Member.send` (success / Forbidden /
  HTTPException).
* Side effects (API mutations, DMs, log lines, pacing sleeps) are recorded as
  an explicit `Event` trace; a sleep of `0.05` s is `sleep 5`, `0.2` s is
  `sleep 20` (hundredths of a second). Log payloads are abbreviated to fixed
  tags; their formatted contents are irrelevant to the properties proved here.
-/

/-- Python string as a list of characters. -/
abbrev PyStr := List Char

/-- Outcome of one platform API call, per the spec's reframing of the
discord exceptions `Forbidden` and `HTTPException` as a typed result. -/
inductive ApiOutcome where
  | success
  | forbidden
  | httpError
deriving DecidableEq, Repr

/-- A member snapshot: id, bot flag, account timestamp (`member.created_at`,
which the source uses as the tenure clock; it is derived from the id and is
always present), and the set of held role ids (`member.roles`). -/
structure Member where
  id : Nat
  bot : Bool
  createdAt : Int
  roles : List Nat
deriving DecidableEq, Repr

/-- The module-level configuration of `main.py`, read once from the
environment: role ids use `0` for "unset" exactly as the source's falsiness
checks do. -/
structure Config where
  roleId : Nat
  thresholdDays : Int
  dmMessage : PyStr
  forceAssign : Bool
  excludeRoleIds : List Nat
  dryRun : Bool
  targetUserId : Nat
  pairPrimaryRoleId : Nat
  pairSecondaryRoleIds : List Nat
  pairDmMessages : List PyStr
deriving Repr

/-- The guild snapshot plus outcome oracles for the network calls.
`dmOutcome` takes the member id and the sequence number of the message
within one dispatcher call. -/
structure Guild where
  roles : List Nat
  members : List Member
  addRoleOutcome : Nat → ApiOutcome
  removeRoleOutcome : Nat → ApiOutcome
  dmOutcome : Nat → Nat → ApiOutcome

/-- One observable action of the job: an API side effect, a log line
(tagged), or a pacing sleep (in hundredths of a second). -/
inductive Event where
  | info (tag : String)
  | warn (tag : String)
  | errorLog (tag : String)
  | dmSent (mid : Nat) (text : PyStr)
  | dmDryRun (mid : Nat) (text : PyStr)
  | roleAdded (mid rid : Nat)
  | addDryRun (mid rid : Nat)
  | roleRemoved (mid rid : Nat)
  | removeDryRun (mid rid : Nat)
  | sleep (centis : Nat)
deriving DecidableEq, Repr

/-- An event is a directory-mutation or message-send API call (the side
effects dry-run must not perform). -/
def isSideEffect : Event → Bool
  | .dmSent _ _ => true
  | .roleAdded _ _ => true
  | .roleRemoved _ _ => true
  | _ => false

/-- An event is a DM to a member, either sent or logged under dry-run. -/
def isDmEvent : Event → Bool
  | .dmSent _ _ => true
  | .dmDryRun _ _ => true
  | _ => false

/-- `guild.get_role` / `guild.fetch_role`: a role id resolves iff the guild
has it; the resolved object is identified with its id. -/
def resolve_role (g : Guild) (rid : Nat) : Option Nat :=
  if rid ∈ g.roles then some rid else none

/-- `guild.fetch_member`: first member with the given id, if any. -/
def fetch_member (g : Guild) (uid : Nat) : Option Member :=
  g.members.find? (fun m => m.id = uid)

/-- Python `text.split("\n")`. -/
def pySplitNl : PyStr → List PyStr
  | [] => [[]]
  | c :: rest =>
    if c = '\n' then [] :: pySplitNl rest
    else
      match pySplitNl rest with
      | [] => [[c]]
      | line :: more => (c :: line) :: more

/-- Python `s.strip()`: drop leading and trailing whitespace. -/
def pyStrip (s : PyStr) : PyStr :=
  ((s.dropWhile Char.isWhitespace).reverse.dropWhile Char.isWhitespace).reverse

/-- `[ln.strip() for ln in text.split("\n") if ln.strip()]`. -/
def splitLines (text : PyStr) : List PyStr :=
  ((pySplitNl text).map pyStrip).filter (fun ln => ln ≠ [])

/-- `send_single_dm` (main.py:83-95): one DM total; empty text returns
immediately; under dry-run the message is logged; Forbidden and HTTP errors
are caught and logged. -/
def send_single_dm (cfg : Config) (g : Guild) (m : Member) (text : PyStr) : List Event :=
  if text = [] then []
  else if cfg.dryRun then [.dmDryRun m.id text]
  else
    match g.dmOutcome m.id 0 with
    | .success => [.dmSent m.id text]
    | .forbidden => [.warn "dm-forbidden"]
    | .httpError => [.warn "dm-http-error"]

/-- Loop body of `send_multi_dm` (main.py:103-115): send each line (or log it
under dry-run), break on Forbidden / HTTP error, and sleep 0.2 s after each
delivered line. `k` numbers the messages for the DM outcome oracle. -/
def send_multi_dm_go (cfg : Config) (g : Guild) (mid : Nat) : List PyStr → Nat → List Event
  | [], _ => []
  | ln :: rest, k =>
    if cfg.dryRun then
      .dmDryRun mid ln :: .sleep 20 :: send_multi_dm_go cfg g mid rest (k + 1)
    else
      match g.dmOutcome mid k with
      | .success => .dmSent mid ln :: .sleep 20 :: send_multi_dm_go cfg g mid rest (k + 1)
      | .forbidden => [.warn "dm-forbidden"]
      | .httpError => [.warn "dm-http-error"]

/-- `send_multi_dm` (main.py:98-115): empty text returns immediately,
otherwise one DM per non-blank stripped line. -/
def send_multi_dm (cfg : Config) (g : Guild) (m : Member) (text : PyStr) : List Event :=
  if text = [] then []
  else send_multi_dm_go cfg g m.id (splitLines text) 0

/-- `is_past_threshold` (main.py:121-126): force flag, or account age at
least `max 0 THRESHOLD_DAYS` days. -/
def is_past_threshold (cfg : Config) (now : Int) (m : Member) : Bool :=
  if cfg.forceAssign then true
  else decide (now - m.createdAt ≥ 86400 * max 0 cfg.thresholdDays)

/-- `add_role_if_needed` (main.py:129-157): returns whether the role was (or
would be) added, together with the trace of its side effects. -/
def add_role_if_needed (cfg : Config) (g : Guild) (now : Int) (m : Member) (rid : Nat) :
    Bool × List Event :=
  if m.bot then (false, [])
  else if rid ∈ m.roles then (false, [.info "skip-already-has"])
  else if m.roles.any (fun r => r ∈ cfg.excludeRoleIds) then (false, [.info "skip-excluded"])
  else if ¬ is_past_threshold cfg now m then (false, [.info "skip-threshold"])
  else if cfg.dryRun then
    (true, .addDryRun m.id rid :: send_single_dm cfg g m cfg.dmMessage)
  else
    match g.addRoleOutcome m.id with
    | .forbidden => (false, [.warn "add-forbidden"])
    | .httpError => (false, [.warn "add-http-error"])
    | .success => (true, .roleAdded m.id rid :: send_single_dm cfg g m cfg.dmMessage)

/-- `process_single_user` (main.py:160-166). -/
def process_single_user (cfg : Config) (g : Guild) (now : Int) (rid : Nat) : List Event :=
  match fetch_member g cfg.targetUserId with
  | none => [.errorLog "target-not-found"]
  | some m => (add_role_if_needed cfg g now m rid).2

/-- Loop of `process_full_scan` (main.py:169-174): visit every member, count
the changed ones, sleep 0.05 s after each member. -/
def full_scan_go (cfg : Config) (g : Guild) (now : Int) (rid : Nat) :
    List Member → Nat × List Event
  | [] => (0, [])
  | m :: rest =>
    let r := add_role_if_needed cfg g now m rid
    let t := full_scan_go cfg g now rid rest
    ((if r.1 then 1 else 0) + t.1, r.2 ++ .sleep 5 :: t.2)

/-- `process_full_scan` (main.py:169-174), with its closing log line. -/
def process_full_scan (cfg : Config) (g : Guild) (now : Int) (rid : Nat) : Nat × List Event :=
  let t := full_scan_go cfg g now rid g.members
  (t.1, t.2 ++ [.info "threshold-scan-done"])

/-- Resolution of the secondary pair roles into `(index, Role | None)` pairs
(main.py:198-208), `for idx, sec_id in enumerate(PAIR_SECONDARY_ROLE_IDS)`
rendered with an explicit index counter `k`. -/
def sec_roles_from (g : Guild) (k : Nat) : List Nat → List (Nat × Option Nat)
  | [] => []
  | sid :: rest => (k, resolve_role g sid) :: sec_roles_from g (k + 1) rest

/-- The resolved secondary role list, indices starting at 0. -/
def sec_roles_of (g : Guild) (ids : List Nat) : List (Nat × Option Nat) :=
  sec_roles_from g 0 ids

/-- Warnings logged for each unresolvable secondary role (main.py:205-207). -/
def sec_warn_events (g : Guild) (ids : List Nat) : List Event :=
  (ids.filter (fun sid => resolve_role g sid = none)).map
    (fun _ => .warn "secondary-role-not-found")

/-- The first-matching-secondary-role search (main.py:220-227): skip
unresolved entries, return the first resolved role the member holds, with
its original configured index. -/
def find_pair_match (secRoles : List (Nat × Option Nat)) (m : Member) :
    Option (Nat × Nat) :=
  match secRoles with
  | [] => none
  | (idx, some rid) :: rest =>
    if rid ∈ m.roles then some (idx, rid) else find_pair_match rest m
  | (_, none) :: rest => find_pair_match rest m

/-- Per-member body of the role-pair loop (main.py:212-249): skip bots, skip
non-target members in targeted mode, skip members not holding the primary
role or no secondary match; otherwise remove the primary role (or log under
dry-run), send the multi-line DM mapped to the matched index, count the
member as affected, and sleep 0.05 s. A Forbidden / HTTP error on the
removal logs a warning and `continue`s (no DM, no count, no sleep). -/
def pair_member_step (cfg : Config) (g : Guild) (primary : Nat)
    (secRoles : List (Nat × Option Nat)) (m : Member) : Nat × List Event :=
  if m.bot then (0, [])
  else if cfg.targetUserId ≠ 0 ∧ m.id ≠ cfg.targetUserId then (0, [])
  else if primary ∉ m.roles then (0, [])
  else
    match find_pair_match secRoles m with
    | none => (0, [])
    | some (idx, _) =>
      let msg := cfg.pairDmMessages.getD idx []
      if cfg.dryRun then
        (1, .removeDryRun m.id primary :: (send_multi_dm cfg g m msg ++ [.sleep 5]))
      else
        match g.removeRoleOutcome m.id with
        | .forbidden => (0, [.warn "remove-forbidden"])
        | .httpError => (0, [.warn "remove-http-error"])
        | .success =>
          (1, .roleRemoved m.id primary :: (send_multi_dm cfg g m msg ++ [.sleep 5]))

/-- The member loop of `process_role_pairs`, accumulating the affected count
and the trace. -/
def pair_scan (cfg : Config) (g : Guild) (primary : Nat)
    (secRoles : List (Nat × Option Nat)) : List Member → Nat × List Event
  | [] => (0, [])
  | m :: rest =>
    let r := pair_member_step cfg g primary secRoles m
    let t := pair_scan cfg g primary secRoles rest
    (r.1 + t.1, r.2 ++ t.2)

/-- `process_role_pairs` (main.py:180-251): inert when unconfigured, skipped
with a warning when the primary role is unresolvable, otherwise the member
loop preceded by secondary-resolution warnings and followed by the closing
log line. -/
def process_role_pairs (cfg : Config) (g : Guild) : Nat × List Event :=
  if cfg.pairPrimaryRoleId = 0 ∨ cfg.pairSecondaryRoleIds = [] then
    (0, [.info "pair-scan-not-configured"])
  else
    match resolve_role g cfg.pairPrimaryRoleId with
    | none => (0, [.warn "primary-role-not-found"])
    | some primary =>
      let secRoles := sec_roles_of g cfg.pairSecondaryRoleIds
      let t := pair_scan cfg g primary secRoles g.members
      (t.1, sec_warn_events g cfg.pairSecondaryRoleIds ++ t.2 ++ [.info "pair-scan-done"])

/-- Result of one run: the full event trace, whether the run aborted on an
unresolvable grant role, and the two per-rule-family mutation counters
(`affected` from the pair scan, `changed` from the threshold scan; the
targeted tenure path keeps no counter, as in the source). -/
structure RunOutcome where
  events : List Event
  aborted : Bool
  pairAffected : Nat
  tenureChanged : Nat
deriving DecidableEq, Repr

/-- `run_job` (main.py:257-278): resolve the grant role (logging an error
and returning when it is not found), then the role-pair phase, then the
targeted or full threshold scan. -/
def run_job (cfg : Config) (g : Guild) (now : Int) : RunOutcome :=
  match resolve_role g cfg.roleId with
  | none =>
    { events := [.errorLog "role-id-not-found"], aborted := true
      pairAffected := 0, tenureChanged := 0 }
  | some baseRole =>
    let p := process_role_pairs cfg g
    if cfg.targetUserId ≠ 0 then
      { events := p.2 ++ .info "targeted-mode" :: process_single_user cfg g now baseRole
        aborted := false, pairAffected := p.1, tenureChanged := 0 }
    else
      let t := process_full_scan cfg g now baseRole
      { events := p.2 ++ .info "full-scan-mode" :: t.2
        aborted := false, pairAffected := p.1, tenureChanged := t.1 }

/-! ### Concrete fixtures used by witnesses and counterexamples -/

/-- A baseline configuration for concrete runs. -/
def cfgBase : Config :=
  { roleId := 10, thresholdDays := 2, dmMessage := ['h', 'i'], forceAssign := false
    excludeRoleIds := [99], dryRun := false, targetUserId := 0
    pairPrimaryRoleId := 20, pairSecondaryRoleIds := [30, 31]
    pairDmMessages := [['a', '\n', 'b'], [], ['c']] }

/-- A non-bot member past the threshold, holding the pair primary role and
secondary role 31. -/
def memA : Member := { id := 1, bot := false, createdAt := 0, roles := [20, 31] }

/-- A guild where every role resolves and every API call succeeds. -/
def guildA : Guild :=
  { roles := [10, 20, 30, 31], members := [memA]
    addRoleOutcome := fun _ => .success, removeRoleOutcome := fun _ => .success
    dmOutcome := fun _ _ => .success }

/-- A guild like `guildA` but where the grant role (id 10) does not resolve. -/
def guildNoGrant : Guild :=
  { roles := [20, 30, 31], members := [memA]
    addRoleOutcome := fun _ => .success, removeRoleOutcome := fun _ => .success
    dmOutcome := fun _ _ => .success }

/-- A guild like `guildA` but where secondary role 30 does not resolve. -/
def guildNoSec30 : Guild :=
  { roles := [10, 20, 31], members := [memA]
    addRoleOutcome := fun _ => .success, removeRoleOutcome := fun _ => .success
    dmOutcome := fun _ _ => .success }

/-- A guild like `guildA` but where every role grant is Forbidden. -/
def guildForbidden : Guild :=
  { roles := [10, 20, 30, 31], members := [memA]
    addRoleOutcome := fun _ => .forbidden, removeRoleOutcome := fun _ => .forbidden
    dmOutcome := fun _ _ => .success }

/-! ### Helper lemmas -/

theorem pySplitNl_ne_nil (s : PyStr) : pySplitNl s ≠ [] := by
  match s with
  | [] => simp [pySplitNl]
  | c :: rest =>
    unfold pySplitNl
    by_cases hc : c = '\n'
    · simp [hc]
    · simp only [hc, if_false]
      cases pySplitNl rest <;> simp

theorem pySplitNl_whitespace (s : PyStr) (h : ∀ c ∈ s, c.isWhitespace) :
    ∀ line ∈ pySplitNl s, ∀ c ∈ line, c.isWhitespace := by
  induction s with
  | nil => intro line hline; simp [pySplitNl] at hline; simp [hline]
  | cons c rest ih =>
    intro line hline
    have hc : c.isWhitespace := h c (by simp)
    have hrest : ∀ x ∈ rest, x.isWhitespace := fun x hx => h x (by simp [hx])
    unfold pySplitNl at hline
    by_cases hnl : c = '\n'
    · simp only [hnl, if_true] at hline
      rw [List.mem_cons] at hline
      rcases hline with hline | hline
      · simp [hline]
      · exact ih hrest line hline
    · simp only [hnl, if_false] at hline
      rcases hsplit : pySplitNl rest with _ | ⟨l0, more⟩
      · exact absurd hsplit (pySplitNl_ne_nil rest)
      · rw [hsplit] at hline
        rw [List.mem_cons] at hline
        rcases hline with hline | hline
        · subst hline
          intro x hx
          rw [List.mem_cons] at hx
          rcases hx with hx | hx
          · rwa [hx]
          · exact ih hrest l0 (by simp [hsplit]) x hx
        · exact ih hrest line (by simp [hsplit, hline])

theorem pyStrip_whitespace (s : PyStr) (h : ∀ c ∈ s, c.isWhitespace) :
    pyStrip s = [] := by
  unfold pyStrip
  have h1 : s.dropWhile Char.isWhitespace = [] := by
    rw [List.dropWhile_eq_nil_iff]
    exact fun x hx => h x hx
  simp [h1]

theorem splitLines_whitespace (text : PyStr) (h : ∀ c ∈ text, c.isWhitespace) :
    splitLines text = [] := by
  unfold splitLines
  rw [List.filter_eq_nil_iff]
  intro ln hln
  simp only [List.mem_map] at hln
  obtain ⟨l0, hl0, hstrip⟩ := hln
  have : pyStrip l0 = [] :=
    pyStrip_whitespace l0 (pySplitNl_whitespace text h l0 hl0)
  simp [← hstrip, this]

theorem is_past_threshold_dryRun (cfg : Config) (b : Bool) (now : Int) (m : Member) :
    is_past_threshold { cfg with dryRun := b } now m = is_past_threshold cfg now m := rfl

theorem send_single_dm_cases (cfg : Config) (g : Guild) (m : Member) (t : PyStr) :
    send_single_dm cfg g m t = [] ∨
    send_single_dm cfg g m t = [Event.dmDryRun m.id t] ∨
    send_single_dm cfg g m t = [Event.dmSent m.id t] ∨
    (∃ s, send_single_dm cfg g m t = [Event.warn s]) := by
  unfold send_single_dm
  split
  · exact Or.inl rfl
  split
  · exact Or.inr (Or.inl rfl)
  split
  · exact Or.inr (Or.inr (Or.inl rfl))
  · exact Or.inr (Or.inr (Or.inr ⟨_, rfl⟩))
  · exact Or.inr (Or.inr (Or.inr ⟨_, rfl⟩))

theorem add_role_events_cases (cfg : Config) (g : Guild) (now : Int) (m : Member) (rid : Nat) :
    (add_role_if_needed cfg g now m rid).2 = [] ∨
    (∃ t, (add_role_if_needed cfg g now m rid).2 = [Event.info t]) ∨
    (∃ t, (add_role_if_needed cfg g now m rid).2 = [Event.warn t]) ∨
    (add_role_if_needed cfg g now m rid).2
      = Event.addDryRun m.id rid :: send_single_dm cfg g m cfg.dmMessage ∨
    (add_role_if_needed cfg g now m rid).2
      = Event.roleAdded m.id rid :: send_single_dm cfg g m cfg.dmMessage := by
  unfold add_role_if_needed
  split
  · exact Or.inl rfl
  split
  · exact Or.inr (Or.inl ⟨_, rfl⟩)
  split
  · exact Or.inr (Or.inl ⟨_, rfl⟩)
  split
  · exact Or.inr (Or.inl ⟨_, rfl⟩)
  split
  · exact Or.inr (Or.inr (Or.inr (Or.inl rfl)))
  split
  · exact Or.inr (Or.inr (Or.inl ⟨_, rfl⟩))
  · exact Or.inr (Or.inr (Or.inl ⟨_, rfl⟩))
  · exact Or.inr (Or.inr (Or.inr (Or.inr rfl)))

/-! ### C1: the tenure rule's time test -/

/-- C1: the time test of the tenure rule qualifies a member iff the force
flag is set, or now minus the member's (always-present) creation timestamp
is at least the threshold duration with the threshold floored at zero; and
the full scan visits every member of the population (one pacing sleep per
member), so the set of members skipped for a missing join time is empty —
`member.created_at` is derived from the member id and always resolves. -/
theorem tenure_time_test (cfg : Config) (g : Guild) (now : Int) (m : Member) (rid : Nat) :
    (is_past_threshold cfg now m = true ↔
      (cfg.forceAssign = true ∨ now - m.createdAt ≥ 86400 * max 0 cfg.thresholdDays)) ∧
    (process_full_scan cfg g now rid).2.countP (fun e => decide (e = Event.sleep 5))
      = g.members.length := by
  constructor
  · unfold is_past_threshold
    by_cases hf : cfg.forceAssign <;> simp [hf]
  · have hsingle : ∀ (mm : Member) (t : PyStr),
        (send_single_dm cfg g mm t).countP (fun e => decide (e = Event.sleep 5)) = 0 := by
      intro mm t
      rcases send_single_dm_cases cfg g mm t with h | h | h | ⟨s, h⟩ <;> simp [h]
    have hadd : ∀ (mm : Member),
        (add_role_if_needed cfg g now mm rid).2.countP
          (fun e => decide (e = Event.sleep 5)) = 0 := by
      intro mm
      rcases add_role_events_cases cfg g now mm rid with h | ⟨t, h⟩ | ⟨t, h⟩ | h | h <;>
        simp [h, List.countP_cons, hsingle]
    have hgo : ∀ (ms : List Member),
        (full_scan_go cfg g now rid ms).2.countP (fun e => decide (e = Event.sleep 5))
          = ms.length := by
      intro ms
      induction ms with
      | nil => simp [full_scan_go]
      | cons mm rest ih =>
        simp [full_scan_go, List.countP_append, List.countP_cons, hadd mm, ih]
    unfold process_full_scan
    simp [List.countP_append, hgo]

/-! ### C8: monotonicity of the tenure time test in elapsed time -/

/-- C8: with a fixed creation timestamp and unchanged config, once
`is_past_threshold` is true at some time `now`, it stays true at every later
time. -/
theorem tenure_monotone (cfg : Config) (m : Member) (now now' : Int)
    (h : now ≤ now') (htrue : is_past_threshold cfg now m = true) :
    is_past_threshold cfg now' m = true := by
  unfold is_past_threshold at htrue ⊢
  by_cases hf : cfg.forceAssign
  · simp [hf]
  · rw [Bool.not_eq_true] at hf
    simp only [hf, Bool.false_eq_true, if_false, decide_eq_true_eq] at htrue ⊢
    linarith

/-- Witness for C8 at a concrete member and pair of times: true exactly at
the threshold, still true a day later. -/
theorem tenure_monotone_witness :
    is_past_threshold cfgBase (86400 * 2) memA = true ∧
    is_past_threshold cfgBase (86400 * 3) memA = true :=
  ⟨by decide, tenure_monotone cfgBase memA (86400 * 2) (86400 * 3) (by norm_num) (by decide)⟩

/-! ### C3: run order when the grant role is unresolvable -/

/-- Counterexample to C3: with the grant role unresolvable, the pair phase
would have affected one member (it is fully configured and `memA`
qualifies), yet the run's whole trace is the single error log — the
pair-resolution phase does not execute before the abort, because `run_job`
resolves the grant role first. -/
theorem run_order_abort_cex :
    (process_role_pairs cfgBase guildNoGrant).1 = 1 ∧
    (run_job cfgBase guildNoGrant 0).aborted = true ∧
    (run_job cfgBase guildNoGrant 0).events = [Event.errorLog "role-id-not-found"] := by
  refine ⟨?_, ?_, ?_⟩ <;> decide

/-- C3 amended: when the grant role cannot be resolved, the run aborts with
an error immediately — the grant role is resolved at the start of `run_job`,
before the pair-resolution phase, so neither phase executes. -/
theorem grant_role_unresolvable_aborts (cfg : Config) (g : Guild) (now : Int)
    (h : resolve_role g cfg.roleId = none) :
    run_job cfg g now =
      { events := [Event.errorLog "role-id-not-found"], aborted := true
        pairAffected := 0, tenureChanged := 0 } := by
  unfold run_job
  rw [h]

/-- Witness for the amended C3 at a concrete run. -/
theorem grant_role_unresolvable_aborts_witness :
    resolve_role guildNoGrant cfgBase.roleId = none ∧
    run_job cfgBase guildNoGrant 0 =
      { events := [Event.errorLog "role-id-not-found"], aborted := true
        pairAffected := 0, tenureChanged := 0 } :=
  ⟨by decide, grant_role_unresolvable_aborts cfgBase guildNoGrant 0 (by decide)⟩

/-! ### C4: multi-segment notifications under dry-run -/

/-- The dry-run variant of the baseline configuration. -/
def cfgDry : Config := { cfgBase with dryRun := true }

/-- Counterexample to C4: under dry-run, a two-segment notification logs
both would-be messages but still performs the 0.2 s pacing sleep after each
segment — the pacing delay is not skipped. -/
theorem dry_run_pacing_cex :
    cfgDry.dryRun = true ∧
    send_multi_dm cfgDry guildA memA ['a', '\n', 'b'] =
      [Event.dmDryRun memA.id ['a'], Event.sleep 20,
       Event.dmDryRun memA.id ['b'], Event.sleep 20] := by
  refine ⟨rfl, ?_⟩
  decide

/-- C4 amended: under dry-run every would-be message of a multi-segment
notification is logged instead of sent, and the ≈200 ms pacing sleep still
occurs after each logged segment (the source sleeps unconditionally inside
the loop); in particular no actual send or mutation happens. -/
theorem dry_run_multi_dm (cfg : Config) (g : Guild) (m : Member) (text : PyStr)
    (h : cfg.dryRun = true) :
    send_multi_dm cfg g m text =
      ((splitLines text).map (fun ln => [Event.dmDryRun m.id ln, Event.sleep 20])).flatten ∧
    ∀ e ∈ send_multi_dm cfg g m text, isSideEffect e = false := by
  have hgo : ∀ (lns : List PyStr) (k : Nat),
      send_multi_dm_go cfg g m.id lns k =
        (lns.map (fun ln => [Event.dmDryRun m.id ln, Event.sleep 20])).flatten := by
    intro lns
    induction lns with
    | nil => intro k; simp [send_multi_dm_go]
    | cons ln rest ih => intro k; simp [send_multi_dm_go, h, ih]
  have hmain : send_multi_dm cfg g m text =
      ((splitLines text).map (fun ln => [Event.dmDryRun m.id ln, Event.sleep 20])).flatten := by
    unfold send_multi_dm
    split
    · rename_i htext
      subst htext
      simp [splitLines, pySplitNl, pyStrip]
    · exact hgo (splitLines text) 0
  refine ⟨hmain, ?_⟩
  intro e he
  rw [hmain] at he
  simp only [List.mem_flatten, List.mem_map] at he
  obtain ⟨l, ⟨ln, _, hl⟩, hel⟩ := he
  rw [← hl] at hel
  simp only [List.mem_cons, List.not_mem_nil, or_false] at hel
  rcases hel with hel | hel <;> subst hel <;> simp [isSideEffect]

/-- Witness for the amended C4 at a concrete dry-run notification. -/
theorem dry_run_multi_dm_witness :
    cfgDry.dryRun = true ∧
    (send_multi_dm cfgDry guildA memA ['a', '\n', 'b'] =
      ((splitLines ['a', '\n', 'b']).map
        (fun ln => [Event.dmDryRun memA.id ln, Event.sleep 20])).flatten ∧
     ∀ e ∈ send_multi_dm cfgDry guildA memA ['a', '\n', 'b'], isSideEffect e = false) :=
  ⟨rfl, dry_run_multi_dm cfgDry guildA memA ['a', '\n', 'b'] rfl⟩

/-! ### C7: empty and blank notification text -/

/-- Counterexample to C7: `send_single_dm` only short-circuits on the empty
string (`if not text`), so a whitespace-only text `" "` is actually sent as
a message, not silently dropped. -/
theorem blank_single_dm_cex :
    cfgBase.dryRun = false ∧
    send_single_dm cfgBase guildA memA [' '] = [Event.dmSent memA.id [' ']] := by
  refine ⟨rfl, ?_⟩
  decide

/-- C7 amended: empty text is a silent no-op for both `send_single_dm` and
`send_multi_dm`, and whitespace-only text is a silent no-op for
`send_multi_dm` (every segment strips to empty and is dropped) — but
`send_single_dm` sends whitespace-only non-empty text as-is. -/
theorem blank_text_noop (cfg : Config) (g : Guild) (m : Member) (text : PyStr)
    (hblank : ∀ c ∈ text, c.isWhitespace) :
    send_single_dm cfg g m [] = [] ∧
    send_multi_dm cfg g m [] = [] ∧
    send_multi_dm cfg g m text = [] := by
  refine ⟨by simp [send_single_dm], by simp [send_multi_dm], ?_⟩
  unfold send_multi_dm
  split
  · rfl
  · rw [splitLines_whitespace text hblank]
    rfl

/-- Witness for the amended C7 at the whitespace-only text `" "`. -/
theorem blank_text_noop_witness :
    (∀ c ∈ ([' '] : PyStr), c.isWhitespace) ∧
    (send_single_dm cfgBase guildA memA [] = [] ∧
     send_multi_dm cfgBase guildA memA [] = [] ∧
     send_multi_dm cfgBase guildA memA [' '] = []) :=
  ⟨by decide, blank_text_noop cfgBase guildA memA [' '] (by decide)⟩

/-! ### C2 and C10: first-match selection in the role-pair rule -/

/-- A member holding the pair primary role and both secondary roles. -/
def memB : Member := { id := 2, bot := false, createdAt := 0, roles := [20, 30, 31] }

/-- The matched entry of `find_pair_match` over the resolved secondary
roles, with the running index starting at `k`: the returned index is `k`
plus the entry's position, the role is resolvable and held, and no earlier
entry is both resolvable and held. -/
theorem find_pair_match_from_sound (g : Guild) (m : Member) :
    ∀ (ids : List Nat) (k i ri : Nat),
      find_pair_match (sec_roles_from g k ids) m = some (i, ri) →
      k ≤ i ∧ ids.get? (i - k) = some ri ∧ ri ∈ g.roles ∧ ri ∈ m.roles ∧
      ∀ j rj, k ≤ j → j < i → ids.get? (j - k) = some rj →
        ¬(rj ∈ g.roles ∧ rj ∈ m.roles) := by
  intro ids
  induction ids with
  | nil =>
    intro k i ri h
    simp [sec_roles_from, find_pair_match] at h
  | cons sid rest ih =>
    intro k i ri h
    rw [sec_roles_from] at h
    by_cases hg : sid ∈ g.roles
    · have hres : resolve_role g sid = some sid := by simp [resolve_role, hg]
      rw [hres] at h
      simp only [find_pair_match] at h
      by_cases hm : sid ∈ m.roles
      · rw [if_pos hm] at h
        simp only [Option.some.injEq, Prod.mk.injEq] at h
        obtain ⟨hk, hr⟩ := h
        subst hk; subst hr
        refine ⟨le_refl _, by simp, hg, hm, ?_⟩
        intro j rj hkj hji
        omega
      · rw [if_neg hm] at h
        obtain ⟨hk, hget, hgr, hmr, hmin⟩ := ih (k + 1) i ri h
        refine ⟨by omega, ?_, hgr, hmr, ?_⟩
        · have hik : i - k = (i - (k + 1)) + 1 := by omega
          rw [hik]
          simpa using hget
        · intro j rj hkj hji hgj
          by_cases hjk : j = k
          · subst hjk
            simp at hgj
            rw [← hgj]
            exact fun hc => hm hc.2
          · have hik : j - k = (j - (k + 1)) + 1 := by omega
            rw [hik] at hgj
            exact hmin j rj (by omega) hji (by simpa using hgj)
    · have hres : resolve_role g sid = none := by simp [resolve_role, hg]
      rw [hres] at h
      simp only [find_pair_match] at h
      obtain ⟨hk, hget, hgr, hmr, hmin⟩ := ih (k + 1) i ri h
      refine ⟨by omega, ?_, hgr, hmr, ?_⟩
      · have hik : i - k = (i - (k + 1)) + 1 := by omega
        rw [hik]
        simpa using hget
      · intro j rj hkj hji hgj
        by_cases hjk : j = k
        · subst hjk
          simp at hgj
          rw [← hgj]
          exact fun hc => hg hc.1
        · have hik : j - k = (j - (k + 1)) + 1 := by omega
          rw [hik] at hgj
          exact hmin j rj (by omega) hji (by simpa using hgj)

/-- Conversely: if position `i` holds the first resolvable-and-held
secondary role, `find_pair_match` selects it, offset by the running
index `k`. -/
theorem find_pair_match_from_complete (g : Guild) (m : Member) :
    ∀ (ids : List Nat) (k i ri : Nat),
      ids.get? i = some ri → ri ∈ g.roles → ri ∈ m.roles →
      (∀ j rj, j < i → ids.get? j = some rj → ¬(rj ∈ g.roles ∧ rj ∈ m.roles)) →
      find_pair_match (sec_roles_from g k ids) m = some (k + i, ri) := by
  intro ids
  induction ids with
  | nil =>
    intro k i ri hget
    simp at hget
  | cons sid rest ih =>
    intro k i ri hget hg hm hmin
    rw [sec_roles_from]
    cases i with
    | zero =>
      simp at hget
      subst hget
      have hres : resolve_role g sid = some sid := by simp [resolve_role, hg]
      rw [hres]
      simp only [find_pair_match]
      rw [if_pos hm]
      simp
    | succ i' =>
      have hhead : ¬(sid ∈ g.roles ∧ sid ∈ m.roles) :=
        hmin 0 sid (Nat.succ_pos i') (by simp)
      have hrec := ih (k + 1) i' ri (by simpa using hget) hg hm
        (fun j rj hj hgj => hmin (j + 1) rj (by omega) (by simpa using hgj))
      by_cases hsg : sid ∈ g.roles
      · have hres : resolve_role g sid = some sid := by simp [resolve_role, hsg]
        rw [hres]
        simp only [find_pair_match]
        have hsm : sid ∉ m.roles := fun hc => hhead ⟨hsg, hc⟩
        rw [if_neg hsm, hrec]
        congr 2
        omega
      · have hres : resolve_role g sid = none := by simp [resolve_role, hsg]
        rw [hres]
        simp only [find_pair_match]
        rw [hrec]
        congr 2
        omega

/-- C2: for a member holding the primary role and more than one configured
secondary role (positions `i < j`, both resolvable and held, `i` being the
first match), the pair rule selects the secondary role at position `i`, and
the member's notification uses the DM template at that same index `i`,
never the later match `j`. -/
theorem pair_first_match_selected (cfg : Config) (g : Guild) (m : Member)
    (primary : Nat) (i ri j rj : Nat)
    (hbot : m.bot = false) (htarget : cfg.targetUserId = 0)
    (hprim : primary ∈ m.roles)
    (hdry : cfg.dryRun = true)
    (hi : cfg.pairSecondaryRoleIds.get? i = some ri)
    (hig : ri ∈ g.roles) (him : ri ∈ m.roles)
    (hleast : ∀ j' rj', j' < i → cfg.pairSecondaryRoleIds.get? j' = some rj' →
      ¬(rj' ∈ g.roles ∧ rj' ∈ m.roles))
    (hij : i < j) (hj : cfg.pairSecondaryRoleIds.get? j = some rj)
    (hjg : rj ∈ g.roles) (hjm : rj ∈ m.roles) :
    find_pair_match (sec_roles_of g cfg.pairSecondaryRoleIds) m = some (i, ri) ∧
    pair_member_step cfg g primary (sec_roles_of g cfg.pairSecondaryRoleIds) m =
      (1, Event.removeDryRun m.id primary ::
        (send_multi_dm cfg g m (cfg.pairDmMessages.getD i []) ++ [Event.sleep 5])) := by
  have hfind : find_pair_match (sec_roles_of g cfg.pairSecondaryRoleIds) m = some (i, ri) := by
    have hc := find_pair_match_from_complete g m cfg.pairSecondaryRoleIds 0 i ri hi hig him hleast
    simpa [sec_roles_of] using hc
  refine ⟨hfind, ?_⟩
  unfold pair_member_step
  rw [if_neg (by simp [hbot])]
  rw [if_neg (by simp [htarget])]
  rw [if_neg (by simpa using hprim)]
  rw [hfind]
  simp [hdry]

/-- Witness for C2: `memB` holds secondary roles at positions 0 and 1; the
engine selects position 0 and uses template 0. -/
theorem pair_first_match_selected_witness :
    find_pair_match (sec_roles_of guildA cfgDry.pairSecondaryRoleIds) memB = some (0, 30) ∧
    pair_member_step cfgDry guildA 20 (sec_roles_of guildA cfgDry.pairSecondaryRoleIds) memB =
      (1, Event.removeDryRun memB.id 20 ::
        (send_multi_dm cfgDry guildA memB (cfgDry.pairDmMessages.getD 0 []) ++
          [Event.sleep 5])) :=
  pair_first_match_selected cfgDry guildA memB 20 0 30 1 31 rfl rfl
    (by decide) rfl (by decide) (by decide) (by decide)
    (fun j' rj' hj' _ => absurd hj' (Nat.not_lt_zero j'))
    (by decide) (by decide) (by decide) (by decide)

/-- C10: whatever `find_pair_match` selects sits at its original configured
position in `PAIR_SECONDARY_ROLE_IDS` — unresolvable secondary roles are
skipped for matching but keep their list position, and every earlier
configured position is not a (resolvable and held) match. Since
`process_role_pairs` indexes `PAIR_DM_MESSAGES` by exactly this returned
index, the template used is the matched role's original configured
position, not its position among the resolvable roles. -/
theorem pair_match_keeps_configured_index (g : Guild) (m : Member) (ids : List Nat)
    (i ri : Nat) (h : find_pair_match (sec_roles_of g ids) m = some (i, ri)) :
    ids.get? i = some ri ∧ ri ∈ g.roles ∧ ri ∈ m.roles ∧
    ∀ j rj, j < i → ids.get? j = some rj → ¬(rj ∈ g.roles ∧ rj ∈ m.roles) := by
  obtain ⟨_, hget, hgr, hmr, hmin⟩ := find_pair_match_from_sound g m ids 0 i ri h
  refine ⟨by simpa using hget, hgr, hmr, ?_⟩
  intro j rj hji hgj
  exact hmin j rj (Nat.zero_le j) hji (by simpa using hgj)

/-- Witness for C10: secondary role 30 (position 0) is unresolvable in
`guildNoSec30` though `memB` holds it; the match lands on position 1 — the
original configured position of role 31, not its position (0) among the
resolvable secondary roles. -/
theorem pair_match_keeps_configured_index_witness :
    find_pair_match (sec_roles_of guildNoSec30 [30, 31]) memB = some (1, 31) ∧
    ([30, 31] : List Nat).get? 1 = some 31 ∧ 31 ∈ guildNoSec30.roles ∧ 31 ∈ memB.roles ∧
    ∀ j rj, j < 1 → ([30, 31] : List Nat).get? j = some rj →
      ¬(rj ∈ guildNoSec30.roles ∧ rj ∈ memB.roles) :=
  ⟨by decide, pair_match_keeps_configured_index guildNoSec30 memB [30, 31] 1 31 (by decide)⟩

/-! ### C5: failed grant attempts are isolated -/

/-- C5: when the role grant fails with Forbidden or an HTTP error (not
dry-run), `add_role_if_needed` returns false, sends no DM (its trace has no
DM events), and the full scan's changed counter is unchanged for that
member while the scan continues with the remaining members. -/
theorem grant_failure_isolated (cfg : Config) (g : Guild) (now : Int) (m : Member)
    (rid : Nat) (rest : List Member)
    (hdry : cfg.dryRun = false)
    (hfail : g.addRoleOutcome m.id = .forbidden ∨ g.addRoleOutcome m.id = .httpError) :
    (add_role_if_needed cfg g now m rid).1 = false ∧
    (∀ e ∈ (add_role_if_needed cfg g now m rid).2, isDmEvent e = false) ∧
    (full_scan_go cfg g now rid (m :: rest)).1 = (full_scan_go cfg g now rid rest).1 ∧
    (full_scan_go cfg g now rid (m :: rest)).2 =
      (add_role_if_needed cfg g now m rid).2 ++
        Event.sleep 5 :: (full_scan_go cfg g now rid rest).2 := by
  have hshape : (add_role_if_needed cfg g now m rid).1 = false ∧
      ((add_role_if_needed cfg g now m rid).2 = [] ∨
       (∃ t, (add_role_if_needed cfg g now m rid).2 = [Event.info t]) ∨
       (∃ t, (add_role_if_needed cfg g now m rid).2 = [Event.warn t])) := by
    unfold add_role_if_needed
    split
    · exact ⟨rfl, Or.inl rfl⟩
    split
    · exact ⟨rfl, Or.inr (Or.inl ⟨_, rfl⟩)⟩
    split
    · exact ⟨rfl, Or.inr (Or.inl ⟨_, rfl⟩)⟩
    split
    · exact ⟨rfl, Or.inr (Or.inl ⟨_, rfl⟩)⟩
    split
    · rename_i hdry2
      rw [hdry] at hdry2
      exact absurd hdry2 (by simp)
    split
    · exact ⟨rfl, Or.inr (Or.inr ⟨_, rfl⟩)⟩
    · exact ⟨rfl, Or.inr (Or.inr ⟨_, rfl⟩)⟩
    · rename_i hsucc
      rcases hfail with hfa | hfa <;> rw [hfa] at hsucc <;> exact absurd hsucc (by simp)
  obtain ⟨h1, h2⟩ := hshape
  refine ⟨h1, ?_, ?_, ?_⟩
  · intro e he
    rcases h2 with h2 | ⟨t, h2⟩ | ⟨t, h2⟩ <;> rw [h2] at he <;> simp at he <;>
      first
        | exact absurd he (by simp)
        | (subst he; rfl)
  · simp [full_scan_go, h1]
  · simp [full_scan_go]

/-- Witness for C5: `memA` qualifies but the grant is Forbidden. -/
theorem grant_failure_isolated_witness :
    cfgBase.dryRun = false ∧
    guildForbidden.addRoleOutcome memA.id = ApiOutcome.forbidden ∧
    ((add_role_if_needed cfgBase guildForbidden (86400 * 3) memA 10).1 = false ∧
     (∀ e ∈ (add_role_if_needed cfgBase guildForbidden (86400 * 3) memA 10).2,
        isDmEvent e = false) ∧
     (full_scan_go cfgBase guildForbidden (86400 * 3) 10 (memA :: [])).1 =
        (full_scan_go cfgBase guildForbidden (86400 * 3) 10 []).1 ∧
     (full_scan_go cfgBase guildForbidden (86400 * 3) 10 (memA :: [])).2 =
        (add_role_if_needed cfgBase guildForbidden (86400 * 3) memA 10).2 ++
          Event.sleep 5 :: (full_scan_go cfgBase guildForbidden (86400 * 3) 10 []).2) :=
  ⟨rfl, rfl,
    grant_failure_isolated cfgBase guildForbidden (86400 * 3) memA 10 [] rfl (Or.inl rfl)⟩

/-! ### C9: empty DM template for a matched pair -/

/-- C9: when the pair rule matches a member to a secondary role whose
configured DM template is empty, the primary role is still removed (or
logged under dry-run), the member still counts toward the pair-phase
affected total, and no DM at all is sent or logged. -/
theorem empty_template_pair (cfg : Config) (g : Guild) (primary : Nat)
    (secRoles : List (Nat × Option Nat)) (m : Member) (i ri : Nat)
    (hbot : m.bot = false) (htarget : cfg.targetUserId = 0)
    (hprim : primary ∈ m.roles)
    (hfind : find_pair_match secRoles m = some (i, ri))
    (hmsg : cfg.pairDmMessages.getD i [] = [])
    (hok : cfg.dryRun = true ∨ g.removeRoleOutcome m.id = .success) :
    (pair_member_step cfg g primary secRoles m).1 = 1 ∧
    (∀ e ∈ (pair_member_step cfg g primary secRoles m).2, isDmEvent e = false) ∧
    (Event.removeDryRun m.id primary ∈ (pair_member_step cfg g primary secRoles m).2 ∨
     Event.roleRemoved m.id primary ∈ (pair_member_step cfg g primary secRoles m).2) := by
  have hmsg2 : cfg.pairDmMessages[i]?.getD [] = [] := by
    simpa [List.getD] using hmsg
  by_cases hd : cfg.dryRun
  · have hstep : pair_member_step cfg g primary secRoles m =
        (1, [Event.removeDryRun m.id primary, Event.sleep 5]) := by
      unfold pair_member_step
      rw [if_neg (by simp [hbot]), if_neg (by simp [htarget]),
        if_neg (by simpa using hprim), hfind]
      simp [hd, hmsg2, send_multi_dm]
    rw [hstep]
    refine ⟨rfl, ?_, Or.inl (by simp)⟩
    intro e he
    simp at he
    rcases he with he | he <;> subst he <;> rfl
  · have hsucc : g.removeRoleOutcome m.id = .success := by
      rcases hok with h | h
      · exact absurd h hd
      · exact h
    have hstep : pair_member_step cfg g primary secRoles m =
        (1, [Event.roleRemoved m.id primary, Event.sleep 5]) := by
      unfold pair_member_step
      rw [if_neg (by simp [hbot]), if_neg (by simp [htarget]),
        if_neg (by simpa using hprim), hfind]
      simp [hd, hsucc, hmsg2, send_multi_dm]
    rw [hstep]
    refine ⟨rfl, ?_, Or.inr (by simp)⟩
    intro e he
    simp at he
    rcases he with he | he <;> subst he <;> rfl

/-- Witness for C9: `memA` matches secondary role 31 at position 1, whose
configured template is empty; the removal happens, the member counts, and
no DM event occurs. -/
theorem empty_template_pair_witness :
    cfgBase.pairDmMessages.getD 1 [] = [] ∧
    ((pair_member_step cfgBase guildA 20
        (sec_roles_of guildA cfgBase.pairSecondaryRoleIds) memA).1 = 1 ∧
     (∀ e ∈ (pair_member_step cfgBase guildA 20
        (sec_roles_of guildA cfgBase.pairSecondaryRoleIds) memA).2, isDmEvent e = false) ∧
     (Event.removeDryRun memA.id 20 ∈ (pair_member_step cfgBase guildA 20
        (sec_roles_of guildA cfgBase.pairSecondaryRoleIds) memA).2 ∨
      Event.roleRemoved memA.id 20 ∈ (pair_member_step cfgBase guildA 20
        (sec_roles_of guildA cfgBase.pairSecondaryRoleIds) memA).2)) :=
  ⟨by decide,
    empty_template_pair cfgBase guildA 20
      (sec_roles_of guildA cfgBase.pairSecondaryRoleIds) memA 1 31
      rfl rfl (by decide) (by decide) (by decide) (Or.inr rfl)⟩

/-! ### C6: dry-run parity -/

theorem send_single_dry_no_side (cfg : Config) (g : Guild) (m : Member) (t : PyStr)
    (h : cfg.dryRun = true) :
    ∀ e ∈ send_single_dm cfg g m t, isSideEffect e = false := by
  unfold send_single_dm
  split
  · simp
  · intro e he
    simp at he
    subst he
    rfl

theorem send_multi_go_dry_no_side (cfg : Config) (g : Guild) (mid : Nat)
    (h : cfg.dryRun = true) :
    ∀ (lns : List PyStr) (k : Nat), ∀ e ∈ send_multi_dm_go cfg g mid lns k,
      isSideEffect e = false := by
  intro lns
  induction lns with
  | nil => intro k e he; simp [send_multi_dm_go] at he
  | cons ln rest ih =>
    intro k e he
    rw [send_multi_dm_go] at he
    rw [if_pos h] at he
    simp only [List.mem_cons] at he
    rcases he with he | he | he
    · subst he; rfl
    · subst he; rfl
    · exact ih (k + 1) e he

theorem send_multi_dry_no_side (cfg : Config) (g : Guild) (m : Member) (t : PyStr)
    (h : cfg.dryRun = true) :
    ∀ e ∈ send_multi_dm cfg g m t, isSideEffect e = false := by
  unfold send_multi_dm
  split
  · simp
  · exact send_multi_go_dry_no_side cfg g m.id h (splitLines t) 0

theorem add_role_dry_no_side (cfg : Config) (g : Guild) (now : Int) (m : Member) (rid : Nat)
    (h : cfg.dryRun = true) :
    ∀ e ∈ (add_role_if_needed cfg g now m rid).2, isSideEffect e = false := by
  unfold add_role_if_needed
  split
  · simp
  split
  · intro e he; simp at he; subst he; rfl
  split
  · intro e he; simp at he; subst he; rfl
  split
  · intro e he; simp at he; subst he; rfl
  intro e he
  simp only [Prod.snd, List.mem_cons] at he
  rcases he with he | he
  · subst he; rfl
  · exact send_single_dry_no_side cfg g m cfg.dmMessage h e he

theorem pair_step_dry_no_side (cfg : Config) (g : Guild) (primary : Nat)
    (secRoles : List (Nat × Option Nat)) (m : Member)
    (h : cfg.dryRun = true) :
    ∀ e ∈ (pair_member_step cfg g primary secRoles m).2, isSideEffect e = false := by
  unfold pair_member_step
  split
  · simp
  split
  · simp
  split
  · simp
  split
  · simp
  · rename_i idx rid
    intro e he
    simp only [Prod.snd, List.mem_cons] at he
    rcases he with he | he
    · subst he; rfl
    · rw [List.mem_append] at he
      rcases he with he | he
      · exact send_multi_dry_no_side cfg g m _ h e he
      · simp at he; subst he; rfl

theorem full_scan_go_dry_no_side (cfg : Config) (g : Guild) (now : Int) (rid : Nat)
    (h : cfg.dryRun = true) :
    ∀ (ms : List Member), ∀ e ∈ (full_scan_go cfg g now rid ms).2, isSideEffect e = false := by
  intro ms
  induction ms with
  | nil => intro e he; simp [full_scan_go] at he
  | cons m rest ih =>
    intro e he
    simp only [full_scan_go, List.mem_append, List.mem_cons] at he
    rcases he with he | he | he
    · exact add_role_dry_no_side cfg g now m rid h e he
    · subst he; rfl
    · exact ih e he

theorem pair_scan_dry_no_side (cfg : Config) (g : Guild) (primary : Nat)
    (secRoles : List (Nat × Option Nat)) (h : cfg.dryRun = true) :
    ∀ (ms : List Member), ∀ e ∈ (pair_scan cfg g primary secRoles ms).2,
      isSideEffect e = false := by
  intro ms
  induction ms with
  | nil => intro e he; simp [pair_scan] at he
  | cons m rest ih =>
    intro e he
    simp only [pair_scan, List.mem_append] at he
    rcases he with he | he
    · exact pair_step_dry_no_side cfg g primary secRoles m h e he
    · exact ih e he

theorem sec_warn_no_side (g : Guild) (ids : List Nat) :
    ∀ e ∈ sec_warn_events g ids, isSideEffect e = false := by
  intro e he
  simp only [sec_warn_events, List.mem_map] at he
  obtain ⟨sid, _, he⟩ := he
  subst he
  rfl

theorem pairs_dry_no_side (cfg : Config) (g : Guild) (h : cfg.dryRun = true) :
    ∀ e ∈ (process_role_pairs cfg g).2, isSideEffect e = false := by
  unfold process_role_pairs
  split
  · intro e he; simp at he; subst he; rfl
  split
  · intro e he; simp at he; subst he; rfl
  · rename_i p
    intro e he
    simp only [List.mem_append, List.mem_cons] at he
    rcases he with (he | he) | he
    · exact sec_warn_no_side g _ e he
    · exact pair_scan_dry_no_side cfg g _ _ h g.members e he
    · simp at he; subst he; rfl

theorem single_user_dry_no_side (cfg : Config) (g : Guild) (now : Int) (rid : Nat)
    (h : cfg.dryRun = true) :
    ∀ e ∈ process_single_user cfg g now rid, isSideEffect e = false := by
  unfold process_single_user
  split
  · intro e he; simp at he; subst he; rfl
  · rename_i m _
    exact add_role_dry_no_side cfg g now m rid h

theorem run_dry_no_side (cfg : Config) (g : Guild) (now : Int) (h : cfg.dryRun = true) :
    ∀ e ∈ (run_job cfg g now).events, isSideEffect e = false := by
  unfold run_job
  split
  · intro e he; simp at he; subst he; rfl
  · rename_i baseRole _
    split
    · intro e he
      simp only [List.mem_append, List.mem_cons] at he
      rcases he with he | he | he
      · exact pairs_dry_no_side cfg g h e he
      · subst he; rfl
      · exact single_user_dry_no_side cfg g now baseRole h e he
    · intro e he
      simp only [List.mem_append, List.mem_cons] at he
      rcases he with he | he | he
      · exact pairs_dry_no_side cfg g h e he
      · subst he; rfl
      · have hfull := full_scan_go_dry_no_side cfg g now baseRole h g.members
        simp only [process_full_scan, List.mem_append] at he
        rcases he with he | he
        · exact hfull e he
        · simp at he; subst he; rfl

theorem add_role_bool_dry_parity (cfg : Config) (g : Guild) (now : Int) (m : Member)
    (rid : Nat) (hadd : g.addRoleOutcome m.id = .success) :
    (add_role_if_needed { cfg with dryRun := true } g now m rid).1
      = (add_role_if_needed { cfg with dryRun := false } g now m rid).1 := by
  by_cases hb : m.bot
  · simp [add_role_if_needed, hb]
  by_cases hr : rid ∈ m.roles
  · simp [add_role_if_needed, hb, hr]
  by_cases hx : m.roles.any (fun r => r ∈ cfg.excludeRoleIds)
  · simp [add_role_if_needed, hb, hr, hx]
  by_cases ht : is_past_threshold cfg now m
  · simp [add_role_if_needed, hb, hr, hx, is_past_threshold_dryRun, ht, hadd]
  · simp [add_role_if_needed, hb, hr, hx, is_past_threshold_dryRun, ht]

theorem full_scan_count_dry_parity (cfg : Config) (g : Guild) (now : Int) (rid : Nat)
    (hadd : ∀ mid, g.addRoleOutcome mid = .success) :
    ∀ (ms : List Member),
      (full_scan_go { cfg with dryRun := true } g now rid ms).1
        = (full_scan_go { cfg with dryRun := false } g now rid ms).1 := by
  intro ms
  induction ms with
  | nil => rfl
  | cons m rest ih =>
    simp only [full_scan_go]
    rw [add_role_bool_dry_parity cfg g now m rid (hadd m.id), ih]

theorem pair_step_count_dry_parity (cfg : Config) (g : Guild) (primary : Nat)
    (secRoles : List (Nat × Option Nat)) (m : Member)
    (hrem : g.removeRoleOutcome m.id = .success) :
    (pair_member_step { cfg with dryRun := true } g primary secRoles m).1
      = (pair_member_step { cfg with dryRun := false } g primary secRoles m).1 := by
  by_cases hb : m.bot
  · simp [pair_member_step, hb]
  by_cases htg : cfg.targetUserId ≠ 0 ∧ m.id ≠ cfg.targetUserId
  · simp [pair_member_step, hb, htg]
  by_cases hp : primary ∈ m.roles
  · rcases hf : find_pair_match secRoles m with _ | ⟨idx, rid⟩
    · simp [pair_member_step, hb, htg, hp, hf]
    · simp [pair_member_step, hb, htg, hp, hf, hrem]
  · simp [pair_member_step, hb, htg, hp]

theorem pair_scan_count_dry_parity (cfg : Config) (g : Guild) (primary : Nat)
    (secRoles : List (Nat × Option Nat))
    (hrem : ∀ mid, g.removeRoleOutcome mid = .success) :
    ∀ (ms : List Member),
      (pair_scan { cfg with dryRun := true } g primary secRoles ms).1
        = (pair_scan { cfg with dryRun := false } g primary secRoles ms).1 := by
  intro ms
  induction ms with
  | nil => rfl
  | cons m rest ih =>
    simp only [pair_scan]
    rw [pair_step_count_dry_parity cfg g primary secRoles m (hrem m.id), ih]

theorem pairs_count_dry_parity (cfg : Config) (g : Guild)
    (hrem : ∀ mid, g.removeRoleOutcome mid = .success) :
    (process_role_pairs { cfg with dryRun := true } g).1
      = (process_role_pairs { cfg with dryRun := false } g).1 := by
  by_cases hcfg : cfg.pairPrimaryRoleId = 0 ∨ cfg.pairSecondaryRoleIds = []
  · simp [process_role_pairs, hcfg]
  · rcases hres : resolve_role g cfg.pairPrimaryRoleId with _ | p
    · simp [process_role_pairs, hcfg, hres]
    · simp only [process_role_pairs, hcfg, if_false, hres]
      exact pair_scan_count_dry_parity cfg g p
        (sec_roles_of g cfg.pairSecondaryRoleIds) hrem g.members

/-- C6: with every directory mutation succeeding, a dry-run pass of the
whole job reports the same per-rule-family mutation counts (pair-phase
affected, tenure-phase changed) and the same abort status as a non-dry-run
pass on the same snapshot, while the dry-run trace contains no
directory-mutation and no message-send call. -/
theorem dry_run_parity (cfg : Config) (g : Guild) (now : Int)
    (hadd : ∀ mid, g.addRoleOutcome mid = .success)
    (hrem : ∀ mid, g.removeRoleOutcome mid = .success) :
    (run_job { cfg with dryRun := true } g now).pairAffected
      = (run_job { cfg with dryRun := false } g now).pairAffected ∧
    (run_job { cfg with dryRun := true } g now).tenureChanged
      = (run_job { cfg with dryRun := false } g now).tenureChanged ∧
    (run_job { cfg with dryRun := true } g now).aborted
      = (run_job { cfg with dryRun := false } g now).aborted ∧
    ∀ e ∈ (run_job { cfg with dryRun := true } g now).events, isSideEffect e = false := by
  refine ⟨?_, ?_, ?_, run_dry_no_side { cfg with dryRun := true } g now rfl⟩
  · unfold run_job
    rcases hres : resolve_role g cfg.roleId with _ | baseRole
    · simp [hres]
    · by_cases htg : cfg.targetUserId ≠ 0
      · simp [hres, htg, pairs_count_dry_parity cfg g hrem]
      · simp [hres, htg, pairs_count_dry_parity cfg g hrem]
  · unfold run_job
    rcases hres : resolve_role g cfg.roleId with _ | baseRole
    · simp [hres]
    · by_cases htg : cfg.targetUserId ≠ 0
      · simp [hres, htg]
      · simp only [hres, htg, if_false]
        simp [process_full_scan, full_scan_count_dry_parity cfg g now baseRole hadd g.members]
  · unfold run_job
    rcases hres : resolve_role g cfg.roleId with _ | baseRole
    · simp [hres]
    · by_cases htg : cfg.targetUserId ≠ 0 <;> simp [hres, htg]

/-- Witness for C6 on the all-success guild `guildA`. -/
theorem dry_run_parity_witness :
    (∀ mid, guildA.addRoleOutcome mid = ApiOutcome.success) ∧
    (∀ mid, guildA.removeRoleOutcome mid = ApiOutcome.success) ∧
    ((run_job { cfgBase with dryRun := true } guildA 0).pairAffected
        = (run_job { cfgBase with dryRun := false } guildA 0).pairAffected ∧
     (run_job { cfgBase with dryRun := true } guildA 0).tenureChanged
        = (run_job { cfgBase with dryRun := false } guildA 0).tenureChanged ∧
     (run_job { cfgBase with dryRun := true } guildA 0).aborted
        = (run_job { cfgBase with dryRun := false } guildA 0).aborted ∧
     ∀ e ∈ (run_job { cfgBase with dryRun := true } guildA 0).events,
        isSideEffect e = false) :=
  ⟨fun _ => rfl, fun _ => rfl,
    dry_run_parity cfgBase guildA 0 (fun _ => rfl) (fun _ => rfl)⟩
